import Mathlib

/-!
Verification development for the carma-platform trajectory/geometry utility
layer and the drivers-controller driver manager.

The waypoint-generation functions (`optimize_speed`, `compute_curvature_at`,
`attach_past_points`, `constrain_to_time_boundary`, `get_nearest_point_index`,
`trajectory_from_points_times_orientations`) are exercised by the repository's
test suite but their implementations are not part of the sources at hand, so
they are modelled from the specification; the repository's tests pin their
behaviour at concrete inputs and are embedded as data where they decide a
property.  `DriverManager` is embedded directly from
`src/subsystem_controllers/src/drivers_controller/driver_manager.cpp`.
-/

namespace subsystem_controllers

/-- System alert message, embedded from the `carma_msgs::msg::SystemAlert`
fields used by `driver_manager.cpp`: a description string and a type code.
The numeric values of the type codes follow the message definition
(CAUTION=1, WARNING=2, FATAL=3, NOT_READY=4, DRIVERS_READY=5, SHUTDOWN=6);
only their distinctness matters to the properties proved here. -/
structure SystemAlert where
  description : String
  type : Nat
deriving DecidableEq, Repr

def CAUTION : Nat := 1
def WARNING : Nat := 2
def FATAL : Nat := 3
def NOT_READY : Nat := 4
def DRIVERS_READY : Nat := 5
def SHUTDOWN : Nat := 6

/-- Lifecycle active-state constant `lifecycle_msgs::msg::State::PRIMARY_STATE_ACTIVE`. -/
def PRIMARY_STATE_ACTIVE : Nat := 3

/-- A driver entry as used by `DriverManager` (fields `available_`, `name_`,
`timestamp_`, `is_ros1_` of the `Entry` record read in
`are_critical_drivers_operational_truck` / `_car`). -/
structure Entry where
  available : Bool
  name : String
  timestamp : Int
  is_ros1 : Bool
deriving DecidableEq, Repr

/-- The `DriverManager` state as far as `handle_spin` reads it: the entry
list held by the entry manager, the entry-classification queries
(`is_entry_required`, `is_lidar_gps_entry_required`,
`is_camera_entry_required`), the lifecycle manager's per-node state query
(`get_managed_node_state`), the driver timeout and the `starting_up_` flag. -/
structure DriverManager where
  entries : List Entry
  is_entry_required : String → Bool
  is_lidar_gps_entry_required : String → Int
  is_camera_entry_required : String → Int
  lifecycle_state : String → Nat
  driver_timeout : Int
  starting_up : Bool

/-- `DriverManager::evaluate_sensor` (driver_manager.cpp lines 214-237):
writes 0 or 1 into the passed sensor flag.  For a ros1 driver the flag is 1
iff the driver is available and not timed out; for a ros2 driver it is 1 iff
the lifecycle manager reports the node active. -/
def evaluate_sensor (lifecycle_state : String → Nat) (available : Bool)
    (current_time timestamp driver_timeout : Int) (source_node : String)
    (is_ros1 : Bool) : Int :=
  if is_ros1 then
    if (!available) || (current_time - timestamp > driver_timeout) then 0 else 1
  else
    if lifecycle_state source_node = PRIMARY_STATE_ACTIVE then 1 else 0

/-- Sensor flags accumulated by the truck-mode driver loop
(`ssc`, `lidar1`, `lidar2`, `gps`, `camera`, each initialised to 0). -/
structure TruckFlags where
  ssc : Int
  lidar1 : Int
  lidar2 : Int
  gps : Int
  camera : Int
deriving DecidableEq, Repr

/-- One iteration of the driver loop of
`DriverManager::are_critical_drivers_operational_truck`
(driver_manager.cpp lines 248-272): a required entry overwrites `ssc`;
independently, the lidar/gps classification chain overwrites `lidar1`,
`lidar2` or `gps`, and otherwise a camera entry overwrites `camera`. -/
def truck_step (m : DriverManager) (current_time : Int) (st : TruckFlags)
    (e : Entry) : TruckFlags :=
  let ev := evaluate_sensor m.lifecycle_state e.available current_time
    e.timestamp m.driver_timeout e.name e.is_ros1
  let st1 := if m.is_entry_required e.name then { st with ssc := ev } else st
  if m.is_lidar_gps_entry_required e.name = 0 then { st1 with lidar1 := ev }
  else if m.is_lidar_gps_entry_required e.name = 1 then { st1 with lidar2 := ev }
  else if m.is_lidar_gps_entry_required e.name = 2 then { st1 with gps := ev }
  else if m.is_camera_entry_required e.name = 0 then { st1 with camera := ev }
  else st1

/-- `DriverManager::are_critical_drivers_operational_truck`
(driver_manager.cpp lines 239-325).  After the driver loop the code
manually overwrites `lidar1`, `lidar2` and `gps` to 1 (the commented
"MANUAL DISABLE OF ALL LIDAR AND GPS FAILURE DETECTION"), then runs the
decision chain.  The C++ function returns `std::string`; a fall through
the end of the chain (no `return` executed) is modelled as `none`. -/
def are_critical_drivers_operational_truck (m : DriverManager)
    (current_time : Int) : Option String :=
  let st := m.entries.foldl (truck_step m current_time) ⟨0, 0, 0, 0, 0⟩
  let lidar1 : Int := 1
  let lidar2 : Int := 1
  let gps : Int := 1
  if st.ssc = 0 then some "s_0"
  else if lidar1 = 0 ∧ lidar2 = 0 ∧ gps = 0 then some "s_1_l1_0_l2_0_g_0"
  else if lidar1 = 0 ∧ lidar2 = 0 ∧ gps = 1 then some "s_1_l1_0_l2_0_g_1"
  else if lidar1 = 0 ∧ lidar2 = 1 ∧ gps = 0 then some "s_1_l1_0_l2_1_g_0"
  else if lidar1 = 0 ∧ lidar2 = 1 ∧ gps = 1 then some "s_1_l1_0_l2_1_g_1"
  else if lidar1 = 1 ∧ lidar2 = 0 ∧ gps = 0 then some "s_1_l1_1_l2_0_g_0"
  else if lidar1 = 1 ∧ lidar2 = 0 ∧ gps = 1 then some "s_1_l1_1_l2_0_g_1"
  else if lidar1 = 1 ∧ lidar2 = 1 ∧ gps = 0 then some "s_1_l1_1_l2_1_g_0"
  else if st.camera = 0 ∧ lidar1 = 1 ∧ lidar2 = 1 ∧ gps = 1 then
    some "s_1_l1_1_l2_1_g_1_c_0"
  else if lidar1 = 1 ∧ lidar2 = 1 ∧ gps = 1 ∧ st.camera = 1 then
    some "s_1_l1_1_l2_1_g_1_c_1"
  else none

/-- Sensor flags accumulated by the car-mode driver loop. -/
structure CarFlags where
  ssc : Int
  lidar : Int
  gps : Int
  camera : Int
deriving DecidableEq, Repr

/-- One iteration of the driver loop of
`DriverManager::are_critical_drivers_operational_car`
(driver_manager.cpp lines 335-353). -/
def car_step (m : DriverManager) (current_time : Int) (st : CarFlags)
    (e : Entry) : CarFlags :=
  let ev := evaluate_sensor m.lifecycle_state e.available current_time
    e.timestamp m.driver_timeout e.name e.is_ros1
  let st1 := if m.is_entry_required e.name then { st with ssc := ev } else st
  if m.is_lidar_gps_entry_required e.name = 0 then { st1 with lidar := ev }
  else if m.is_lidar_gps_entry_required e.name = 1 then { st1 with gps := ev }
  else if m.is_camera_entry_required e.name = 0 then { st1 with camera := ev }
  else st1

/-- `DriverManager::are_critical_drivers_operational_car`
(driver_manager.cpp lines 328-401), with the manual overwrite of `lidar`
and `gps` to 1; a fall through the end of the chain is modelled as `none`. -/
def are_critical_drivers_operational_car (m : DriverManager)
    (current_time : Int) : Option String :=
  let st := m.entries.foldl (car_step m current_time) ⟨0, 0, 0, 0⟩
  let lidar : Int := 1
  let gps : Int := 1
  if st.ssc = 1 then
    if lidar = 0 ∧ gps = 0 then some "s_1_l_0_g_0"
    else if lidar = 0 ∧ gps = 1 ∧ st.camera = 1 then some "s_1_l_0_g_1"
    else if lidar = 1 ∧ gps = 0 ∧ st.camera = 1 then some "s_1_l_1_g_0"
    else if st.camera = 0 ∧ lidar = 1 ∧ gps = 1 then some "s_1_l_1_g_1_c_0"
    else if st.camera = 0 ∧ lidar = 0 ∧ gps = 1 then some "s_1_l_0_g_1_c_0"
    else if st.camera = 0 ∧ lidar = 1 ∧ gps = 0 then some "s_1_l_1_g_0_c_0"
    else if lidar = 1 ∧ gps = 1 ∧ st.camera = 1 then some "s_1_l_1_g_1_c_1"
    else none
  else some "s_0"

/-- `DriverManager::handle_spin` (driver_manager.cpp lines 58-201),
returning the alert built for each branch.  The C++ function is non-void;
the truck-mode branch for status `"s_1_l1_1_l2_1_g_1_c_0"` (lines 78-82)
assigns `alert.description = "Camera Failed"` and
`alert.type = SHUTDOWN` but contains no `return` statement, so control
falls through the remainder of the chain and off the end of the function;
executing no `return` is modelled as `none`. -/
def handle_spin (m : DriverManager) (truck car : Bool)
    (time_now start_up_timestamp startup_duration : Int) : Option SystemAlert :=
  if truck then
    match are_critical_drivers_operational_truck m time_now with
    | none => none
    | some status =>
      if status = "s_1_l1_1_l2_1_g_1_c_1" then
        some ⟨"All essential drivers are ready", DRIVERS_READY⟩
      else if m.starting_up ∧ time_now - start_up_timestamp ≤ startup_duration then
        some ⟨"System is starting up...", NOT_READY⟩
      else if status = "s_1_l1_1_l2_1_g_1_c_0" then
        none
      else if status = "s_1_l1_0_l2_1_g_1" ∨ status = "s_1_l1_1_l2_0_g_1" then
        some ⟨"One LIDAR Failed", CAUTION⟩
      else if status = "s_1_l1_0_l2_1_g_0" ∨ status = "s_1_l1_1_l2_0_g_0" then
        some ⟨"One Lidar and GPS Failed", CAUTION⟩
      else if status = "s_1_l1_1_l2_1_g_0" then
        some ⟨"GPS Failed", CAUTION⟩
      else if status = "s_1_l1_0_l2_0_g_1" then
        some ⟨"Both LIDARS Failed", WARNING⟩
      else if status = "s_1_l1_0_l2_0_g_0" then
        some ⟨"LIDARS and GPS Failed", SHUTDOWN⟩
      else if status = "s_0" then
        some ⟨"SSC Failed", SHUTDOWN⟩
      else
        some ⟨"Unknown problem assessing essential driver availability", FATAL⟩
  else if car then
    match are_critical_drivers_operational_car m time_now with
    | none => none
    | some status =>
      if status = "s_1_l_1_g_1_c_1" then
        some ⟨"All essential drivers are ready", DRIVERS_READY⟩
      else if m.starting_up ∧ time_now - start_up_timestamp ≤ startup_duration then
        some ⟨"System is starting up...", NOT_READY⟩
      else if status = "s_1_l_1_g_1_c_0" then
        some ⟨"Camera Failed", SHUTDOWN⟩
      else if status = "s_1_l_1_g_0" then
        some ⟨"GPS Failed", CAUTION⟩
      else if status = "s_1_l_0_g_1" then
        some ⟨"LIDAR Failed", WARNING⟩
      else if status = "s_1_l_0_g_0" then
        some ⟨"LIDAR, GPS Failed", SHUTDOWN⟩
      else if status = "s_1_l_0_g_1_c_0" then
        some ⟨"LIDAR, Camera Failed", SHUTDOWN⟩
      else if status = "s_1_l_1_g_0_c_0" then
        some ⟨" GPS, Camera Failed", SHUTDOWN⟩
      else if status = "s_0" then
        some ⟨"SSC Failed", SHUTDOWN⟩
      else
        some ⟨"Unknown problem assessing essential driver availability", FATAL⟩
  else
    some ⟨"Need to set either truck or car flag", FATAL⟩

/-- A concrete driver-manager state in truck mode with the critical (ssc)
driver operational and the camera driver failed: a fresh, available ros1
entry classified as required, and an unavailable ros1 entry classified as
the camera driver.  Startup has completed (`starting_up = false`). -/
def cameraFailedMgr : DriverManager where
  entries := [⟨true, "ssc", 0, true⟩, ⟨false, "camera", 0, true⟩]
  is_entry_required := fun n => n == "ssc"
  is_lidar_gps_entry_required := fun _ => -1
  is_camera_entry_required := fun n => if n = "camera" then 0 else -1
  lifecycle_state := fun _ => 0
  driver_timeout := 1000
  starting_up := false

/-- The descriptions of every LIDAR-failed or GPS-failed alert branch of
`handle_spin` (truck and car mode). -/
def lidarGpsAlertDescriptions : List String :=
  ["One LIDAR Failed", "One Lidar and GPS Failed", "GPS Failed",
   "Both LIDARS Failed", "LIDARS and GPS Failed", "LIDAR Failed",
   "LIDAR, GPS Failed", "LIDAR, Camera Failed", " GPS, Camera Failed"]

end subsystem_controllers

namespace waypoint_generation

/-- Modelled from the spec: one capping pass of the speed optimizer
(spec 4.3).  Given the previous output speed `vprev` at downtrack `dprev`,
each step computes the maximum speed reachable from it under `max_accel`
over the segment's distance, `sqrt (vprev^2 + 2 * a * ds)`, and caps the
point's speed limit (the second pair component) at that value.  The
forward and backward passes are both instances of this walk, so the
segment's distance is taken as `|d - dprev|`. -/
noncomputable def opt_pass (a : ℝ) : ℝ → ℝ → List (ℝ × ℝ) → List ℝ
  | _, _, [] => []
  | vprev, dprev, (d, c) :: rest =>
    min c (Real.sqrt (vprev ^ 2 + 2 * a * |d - dprev|)) ::
      opt_pass a (min c (Real.sqrt (vprev ^ 2 + 2 * a * |d - dprev|))) d rest

/-- Modelled from the spec (4.3 step 1): the forward pass starts from the
first input speed as-is and walks forward, capping each subsequent speed
at `min (curvature_limit i) (reachable_from_forward i)`. -/
noncomputable def forward_pass (a : ℝ) (downtracks curv : List ℝ) : List ℝ :=
  match downtracks.zip curv with
  | [] => []
  | (d0, c0) :: rest => c0 :: opt_pass a c0 d0 rest

/-- Modelled from the spec (4.3 step 2 together with the anchor rule): the
backward pass starts from the last forward-pass result and walks backward,
capping each index at `min (forward_result i) (reachable_from_backward i)`.
The spec's anchor rule ("the very first output element must equal the first
input curvature-limited speed unchanged") keeps index 0 at its forward
value, which is the first input speed; the repository test
(src/unnamed/part_000 lines 434-467, `curv_speeds = [4,1,3,4,1,0,3,3,6]`,
first expected output 4) fixes this resolution of the spec's two
sentences. -/
noncomputable def backward_pass (a : ℝ) (downtracks f : List ℝ) : List ℝ :=
  match downtracks.zip f with
  | [] => []
  | (_d0, f0) :: tail =>
    match tail.reverse with
    | [] => [f0]
    | (dn, vn) :: revrest => f0 :: (vn :: opt_pass a vn dn revrest).reverse

open Classical in
/-- Modelled from the spec (4.3): `optimize_speed` requires `downtracks`
and `curvature_limited_speeds` of equal, non-zero length and a strictly
positive `max_accel`; violations signal an invalid-argument error and
compute nothing (modelled as `none`).  Otherwise it runs the forward pass
followed by the backward pass. -/
noncomputable def optimize_speed (downtracks curvature_limited_speeds : List ℝ)
    (max_accel : ℝ) : Option (List ℝ) :=
  if downtracks.length = curvature_limited_speeds.length ∧
      downtracks ≠ [] ∧ 0 < max_accel then
    some (backward_pass max_accel downtracks
      (forward_pass max_accel downtracks curvature_limited_speeds))
  else none

/-- Executable mirror of `opt_pass` over `ℚ`, operating on squared speeds:
since all speeds are non-negative, `v = min c (sqrt (vprev^2 + 2 a ds))`
iff `v^2 = min (c^2) (vprev^2 + 2 a ds)`.  The second pair component is
the squared cap. -/
def opt_pass_sq (a : ℚ) : ℚ → ℚ → List (ℚ × ℚ) → List ℚ
  | _, _, [] => []
  | q, dprev, (d, csq) :: rest =>
    min csq (q + 2 * a * |d - dprev|) ::
      opt_pass_sq a (min csq (q + 2 * a * |d - dprev|)) d rest

/-- Executable mirror of `forward_pass` on squared speeds. -/
def forward_pass_sq (a : ℚ) (downtracks curv : List ℚ) : List ℚ :=
  match downtracks.zip (curv.map fun c => c * c) with
  | [] => []
  | (d0, c0) :: rest => c0 :: opt_pass_sq a c0 d0 rest

/-- Executable mirror of `backward_pass` on squared speeds. -/
def backward_pass_sq (a : ℚ) (downtracks f : List ℚ) : List ℚ :=
  match downtracks.zip f with
  | [] => []
  | (_d0, f0) :: tail =>
    match tail.reverse with
    | [] => [f0]
    | (dn, vn) :: revrest => f0 :: (vn :: opt_pass_sq a vn dn revrest).reverse

/-- Executable mirror of `optimize_speed` on squared speeds. -/
def optimize_speed_sq (downtracks curv : List ℚ) (a : ℚ) : Option (List ℚ) :=
  if downtracks.length = curv.length ∧ downtracks ≠ [] ∧ 0 < a then
    some (backward_pass_sq a downtracks (forward_pass_sq a downtracks curv))
  else none

/-- Downtracks of the repository's optimizer test
(src/unnamed/part_000 lines 385-394): 0 to 16, step 2. -/
def test_downtracks : List ℚ := [0, 2, 4, 6, 8, 10, 12, 14, 16]

/-- Curvature-limited speeds of the first optimizer test case
(src/unnamed/part_000 lines 400-408). -/
def test_curv_speeds : List ℚ := [1, 3, 4, 4, 1, 0, 3, 3, 6]

/-- Expected optimizer output of the first test case
(src/unnamed/part_000 lines 412-421), asserted with tolerance 0.001. -/
def test_expected : List ℚ := [1, 3, 4, 3, 1, 0, 2.82843, 3, 4.12311]

/-- Curvature-limited speeds of the second optimizer test case
(src/unnamed/part_000 lines 435-444). -/
def test2_curv_speeds : List ℚ := [4, 1, 3, 4, 1, 0, 3, 3, 6]

/-- Expected optimizer output of the second test case
(src/unnamed/part_000 lines 446-455), asserted with tolerance 0.001. -/
def test2_expected : List ℚ := [4, 2.82847, 3, 3, 1, 0, 2.82843, 3, 4.12311]

/-- Vehicle state snapshot as read by the nearest-point search
(`cav_msgs::VehicleState` fields `X_pos_global`, `Y_pos_global`).
Coordinates are rational so the search is executable. -/
structure VehicleState where
  x_pos_global : ℚ
  y_pos_global : ℚ
deriving DecidableEq, Repr

/-- A `PointSpeedPair`: a 2D point paired with a target speed (spec 3).
Polymorphic in the coordinate type: the geometric utilities use `ℝ`, the
executable nearest-point search uses `ℚ`. -/
structure PointSpeedPair (α : Type) where
  point : α × α
  speed : α
deriving DecidableEq, Repr, Inhabited

/-- Squared Euclidean distance from a point to the vehicle position.
Modelled from the spec (4.4): the search compares Euclidean distances;
comparing their squares is equivalent and keeps the model executable. -/
def distSq (p : ℚ × ℚ) (v : VehicleState) : ℚ :=
  (p.1 - v.x_pos_global) * (p.1 - v.x_pos_global) +
    (p.2 - v.y_pos_global) * (p.2 - v.y_pos_global)

/-- The Euclidean distance itself (used to state minimality). -/
noncomputable def euclidean_dist (p : ℚ × ℚ) (v : VehicleState) : ℝ :=
  Real.sqrt (Rat.cast (distSq p v))

/-- Scan of the nearest-point search: walks the remaining points carrying
the running index and the (best index, best squared distance) pair,
replacing the best only on a strict improvement — so ties keep the lowest
index. -/
def nearest_go (v : VehicleState) : List (ℚ × ℚ) → Nat → Nat × ℚ → Nat × ℚ
  | [], _, acc => acc
  | p :: rest, i, (best, bestD) =>
    if distSq p v < bestD then nearest_go v rest (i + 1) (i, distSq p v)
    else nearest_go v rest (i + 1) (best, bestD)

/-- Modelled from the spec (4.4): `get_nearest_point_index` returns the
index of the point at minimum Euclidean distance from the vehicle's
(x, y), ties broken by first occurrence (lowest index); defined for
non-empty sequences (0 on empty input). -/
def get_nearest_point_index (points : List (ℚ × ℚ)) (state : VehicleState) :
    Nat :=
  match points with
  | [] => 0
  | p :: rest => (nearest_go state rest 1 (0, distSq p state)).1

/-- The overload of the nearest-point search taking point/speed pairs. -/
def get_nearest_point_index_pairs (points : List (PointSpeedPair ℚ))
    (state : VehicleState) : Nat :=
  get_nearest_point_index (points.map fun p => p.point) state

/-- The points `(0,0)` through `(7,7)` of the nearest-index test
(src/unnamed/part_000 lines 166-233). -/
def diag_points : List (ℚ × ℚ) :=
  [(0, 0), (1, 1), (2, 2), (3, 3), (4, 4), (5, 5), (6, 6), (7, 7)]

/-- The same points paired with speed 1 (the pair overload's input). -/
def diag_pairs : List (PointSpeedPair ℚ) :=
  diag_points.map fun p => ⟨p, 1⟩

/-- The vehicle state at `(3.3, 3.3)` used by the nearest-index test. -/
def test_state : VehicleState := ⟨3.3, 3.3⟩

/-- A trajectory plan point (`cav_msgs::TrajectoryPlanPoint` fields used
by the repository test: x, y, yaw, target time, controller plugin name). -/
structure TrajectoryPlanPoint where
  x : ℝ
  y : ℝ
  yaw : ℝ
  target_time : ℝ
  controller_plugin_name : String

/-- Modelled from the spec (4.5): `trajectory_from_points_times_orientations`
builds one trajectory point per input element with absolute target time
`start_time + times[i]`, position `points[i]`, yaw `yaws[i]` and the fixed
default controller tag. -/
def trajectory_from_points_times_orientations :
    List (ℝ × ℝ) → List ℝ → List ℝ → ℝ → List TrajectoryPlanPoint
  | p :: ps, t :: ts, y :: ys, startTime =>
    ⟨p.1, p.2, y, startTime + t, "default"⟩ ::
      trajectory_from_points_times_orientations ps ts ys startTime
  | _, _, _, _ => []

/-- Euclidean distance between two planar points (used by the attach and
horizon utilities). -/
noncomputable def dist2d (p q : ℝ × ℝ) : ℝ :=
  Real.sqrt ((q.1 - p.1) ^ 2 + (q.2 - p.2) ^ 2)

/-- Walk of the spec-literal horizon truncation: `t` is the accumulated
time so far and `prev` the last included pair; the next point is included
while the accumulated time — segment distance divided by the segment's
(starting-point) speed — does not exceed the horizon.  Modelled from the
spec (4.4): "returns the longest prefix whose accumulated time does not
exceed horizon_seconds". -/
noncomputable def time_walk_spec (horizon : ℝ) :
    ℝ → PointSpeedPair ℝ → List (PointSpeedPair ℝ) → List (PointSpeedPair ℝ)
  | _, _, [] => []
  | t, prev, p :: rest =>
    if t + dist2d prev.point p.point / prev.speed ≤ horizon then
      p :: time_walk_spec horizon (t + dist2d prev.point p.point / prev.speed)
        p rest
    else []

/-- Spec-literal `constrain_to_time_boundary` (the spec's
`truncate_to_time_horizon`): always includes the first point, then the
walk with the non-strict comparison the spec words state. -/
noncomputable def constrain_to_time_boundary_spec
    (points : List (PointSpeedPair ℝ)) (horizon : ℝ) :
    List (PointSpeedPair ℝ) :=
  match points with
  | [] => []
  | p :: rest => p :: time_walk_spec horizon 0 p rest

/-- Walk of the horizon truncation with the strict comparison: a point
whose accumulated time reaches the horizon is excluded.  Modelled from the
spec amended by the repository test (src/unnamed/part_000 lines 117-164),
which keeps exactly 6 of 8 unit-spaced points at horizon 6. -/
noncomputable def time_walk (horizon : ℝ) :
    ℝ → PointSpeedPair ℝ → List (PointSpeedPair ℝ) → List (PointSpeedPair ℝ)
  | _, _, [] => []
  | t, prev, p :: rest =>
    if t + dist2d prev.point p.point / prev.speed < horizon then
      p :: time_walk horizon (t + dist2d prev.point p.point / prev.speed)
        p rest
    else []

/-- `constrain_to_time_boundary` as fixed by the repository test: the
first point, then the strict walk. -/
noncomputable def constrain_to_time_boundary
    (points : List (PointSpeedPair ℝ)) (horizon : ℝ) :
    List (PointSpeedPair ℝ) :=
  match points with
  | [] => []
  | p :: rest => p :: time_walk horizon 0 p rest

/-- The 8 collinear unit-spaced pairs at speed 1 of the horizon test
(src/unnamed/part_000 lines 117-141). -/
noncomputable def horizon_test_points : List (PointSpeedPair ℝ) :=
  [⟨(0, 0), 1⟩, ⟨(1, 0), 1⟩, ⟨(2, 0), 1⟩, ⟨(3, 0), 1⟩,
   ⟨(4, 0), 1⟩, ⟨(5, 0), 1⟩, ⟨(6, 0), 1⟩, ⟨(7, 0), 1⟩]

/-- Walk of the spec-literal attach: append future points while their
cumulative distance from the attachment point does not exceed the bound.
Modelled from the spec (4.4): "appends previous_future_pairs whose
cumulative distance from the attachment point does not exceed
max_attach_distance". -/
noncomputable def attach_walk_spec (maxd : ℝ) :
    ℝ → (ℝ × ℝ) → List (PointSpeedPair ℝ) → List (PointSpeedPair ℝ)
  | _, _, [] => []
  | total, prev, p :: rest =>
    if total + dist2d prev p.point ≤ maxd then
      p :: attach_walk_spec maxd (total + dist2d prev p.point) p.point rest
    else []

/-- Spec-literal `attach_past_points`: drop the points of `current` at and
after `nearest_index`, then append the future points within cumulative
distance of the attachment point (the last retained point). -/
noncomputable def attach_past_points_spec
    (current future : List (PointSpeedPair ℝ)) (nearest_index : Nat)
    (maxd : ℝ) : List (PointSpeedPair ℝ) :=
  match (current.take nearest_index).getLast? with
  | none => future
  | some lastp =>
    current.take nearest_index ++ attach_walk_spec maxd 0 lastp.point future

/-- The back walk computing the first retained index of the amended
attach: from i = nearest_index down to 1, set the candidate to i, add the
distance from point i to point i−1, and stop at the index where the total
first exceeds the bound; if the walk completes, the first retained index
is 1.  Amended model fixed by the repository test (src/unnamed/part_000
lines 552-591). -/
noncomputable def back_index (current : List (PointSpeedPair ℝ)) (maxd : ℝ) :
    Nat → ℝ → Nat
  | 0, _ => 0
  | i + 1, total =>
    if maxd < total + dist2d (current[i + 1]!).point (current[i]!).point then
      i + 1
    else if i = 0 then 1
    else back_index current maxd i
      (total + dist2d (current[i + 1]!).point (current[i]!).point)

/-- `attach_past_points` as fixed by the repository test: keep the points
of `current` from the back-walk index through `nearest_index` inclusive,
and append all the future points in order. -/
noncomputable def attach_past_points
    (current future : List (PointSpeedPair ℝ)) (nearest_index : Nat)
    (maxd : ℝ) : List (PointSpeedPair ℝ) :=
  (current.take (nearest_index + 1)).drop (back_index current maxd
    nearest_index 0) ++ future

/-- The 6-point current sequence of the attach test
(src/unnamed/part_000 lines 554-573). -/
noncomputable def attach_current : List (PointSpeedPair ℝ) :=
  [⟨(0, 1), 1⟩, ⟨(1, 2), 1⟩, ⟨(2, 3), 1⟩, ⟨(3, 4), 1⟩,
   ⟨(4, 5), 1⟩, ⟨(5, 6), 1⟩]

/-- The 3 future points of the attach test (its last three points). -/
noncomputable def attach_future : List (PointSpeedPair ℝ) :=
  [⟨(3, 4), 1⟩, ⟨(4, 5), 1⟩, ⟨(5, 6), 1⟩]

/-- Cast of a rational list into the reals (helper for relating the real
optimizer to its executable squared mirror). -/
def castList (l : List ℚ) : List ℝ := l.map (Rat.cast : ℚ → ℝ)

/-- Elementwise real square root of a rational list. -/
noncomputable def sqrtList (l : List ℚ) : List ℝ :=
  l.map fun q => Real.sqrt (Rat.cast q)

/-- Pair cast used by the pass bridge: downtrack is cast, the squared cap
is square-rooted. -/
noncomputable def castSqrtPair (p : ℚ × ℚ) : ℝ × ℝ :=
  (Rat.cast p.1, Real.sqrt (Rat.cast p.2))

/-- Modelled from the spec (3, 4.1): a fitted spline handle, an opaque
curve object sampled for position and first/second derivatives at a
normalized parameter t in [0,1].  The curvature evaluator consumes only
the derivative samples. -/
structure Spline where
  pos : ℝ → ℝ × ℝ
  deriv1 : ℝ → ℝ × ℝ
  deriv2 : ℝ → ℝ × ℝ

/-- Modelled from the spec (4.2): the signed curvature
κ = (x′y″ − y′x″) / (x′² + y′²)^1.5 computed from the spline's first and
second derivatives at t; the 1.5 power of the non-negative x′² + y′² is
written as the square root of its cube. -/
noncomputable def compute_curvature_at (s : Spline) (t : ℝ) : ℝ :=
  (((s.deriv1 t).1 * (s.deriv2 t).2 - (s.deriv1 t).2 * (s.deriv2 t).1)) /
    Real.sqrt ((((s.deriv1 t).1) ^ 2 + ((s.deriv1 t).2) ^ 2) ^ 3)

/-- Modelled from the spec (4.1): for collinear input points the fitter
fits a straight line whose tangent matches the input segment direction, so
every derivative sample points along one fixed direction v. -/
def IsLineFit (s : Spline) (v : ℝ × ℝ) : Prop :=
  ∀ t : ℝ, (∃ g : ℝ, s.deriv1 t = (g * v.1, g * v.2)) ∧
    (∃ k : ℝ, s.deriv2 t = (k * v.1, k * v.2))

/-- Modelled from the spec (4.1/4.2): the fit of points sampled on a
closed circle of radius R centred at c, traversed once uniformly over
[0,1] (t = 0 and t = 1 both map to angle 0, the wrap-around boundary). -/
noncomputable def circleSpline (c : ℝ × ℝ) (R : ℝ) : Spline where
  pos := fun t => (c.1 + R * Real.cos (2 * Real.pi * t),
    c.2 + R * Real.sin (2 * Real.pi * t))
  deriv1 := fun t => (-(2 * Real.pi * R) * Real.sin (2 * Real.pi * t),
    (2 * Real.pi * R) * Real.cos (2 * Real.pi * t))
  deriv2 := fun t => (-(4 * Real.pi ^ 2 * R) * Real.cos (2 * Real.pi * t),
    -(4 * Real.pi ^ 2 * R) * Real.sin (2 * Real.pi * t))

/-- A concrete straight-line spline along the x axis (unit tangent, zero
second derivative), used as a witness input. -/
noncomputable def lineSplineX : Spline where
  pos := fun t => (t, 0)
  deriv1 := fun _ => (1, 0)
  deriv2 := fun _ => (0, 0)

end waypoint_generation


namespace subsystem_controllers

/-- `evaluate_sensor` only ever writes 0 or 1. -/
theorem evaluate_sensor_zero_or_one (ls : String → Nat) (av : Bool)
    (ct ts dt : Int) (sn : String) (r1 : Bool) :
    evaluate_sensor ls av ct ts dt sn r1 = 0 ∨
      evaluate_sensor ls av ct ts dt sn r1 = 1 := by
  unfold evaluate_sensor
  split
  · split
    · exact Or.inl rfl
    · exact Or.inr rfl
  · split
    · exact Or.inr rfl
    · exact Or.inl rfl

/-- One truck-loop step keeps the `ssc` and `camera` flags in {0, 1}. -/
theorem truck_step_flags (m : DriverManager) (t : Int) (st : TruckFlags)
    (e : Entry) (h1 : st.ssc = 0 ∨ st.ssc = 1)
    (h2 : st.camera = 0 ∨ st.camera = 1) :
    ((truck_step m t st e).ssc = 0 ∨ (truck_step m t st e).ssc = 1) ∧
      ((truck_step m t st e).camera = 0 ∨ (truck_step m t st e).camera = 1) := by
  rcases evaluate_sensor_zero_or_one m.lifecycle_state e.available t
    e.timestamp m.driver_timeout e.name e.is_ros1 with hev | hev <;>
  · simp only [truck_step]
    rw [hev]
    split_ifs <;> simp_all

/-- The truck driver loop keeps every flag in {0, 1} if it starts there. -/
theorem truck_fold_flags (m : DriverManager) (t : Int) :
    ∀ (l : List Entry) (st : TruckFlags),
      (st.ssc = 0 ∨ st.ssc = 1) → (st.camera = 0 ∨ st.camera = 1) →
      ((l.foldl (truck_step m t) st).ssc = 0 ∨
        (l.foldl (truck_step m t) st).ssc = 1) ∧
      ((l.foldl (truck_step m t) st).camera = 0 ∨
        (l.foldl (truck_step m t) st).camera = 1) := by
  intro l
  induction l with
  | nil => intro st h1 h2; exact ⟨h1, h2⟩
  | cons e rest ih =>
    intro st h1 h2
    simp only [List.foldl_cons]
    obtain ⟨g1, g2⟩ := truck_step_flags m t st e h1 h2
    exact ih (truck_step m t st e) g1 g2

/-- One car-loop step keeps the `ssc` and `camera` flags in {0, 1}. -/
theorem car_step_flags (m : DriverManager) (t : Int) (st : CarFlags)
    (e : Entry) (h1 : st.ssc = 0 ∨ st.ssc = 1)
    (h2 : st.camera = 0 ∨ st.camera = 1) :
    ((car_step m t st e).ssc = 0 ∨ (car_step m t st e).ssc = 1) ∧
      ((car_step m t st e).camera = 0 ∨ (car_step m t st e).camera = 1) := by
  rcases evaluate_sensor_zero_or_one m.lifecycle_state e.available t
    e.timestamp m.driver_timeout e.name e.is_ros1 with hev | hev <;>
  · simp only [car_step]
    rw [hev]
    split_ifs <;> simp_all

/-- The car driver loop keeps every flag in {0, 1} if it starts there. -/
theorem car_fold_flags (m : DriverManager) (t : Int) :
    ∀ (l : List Entry) (st : CarFlags),
      (st.ssc = 0 ∨ st.ssc = 1) → (st.camera = 0 ∨ st.camera = 1) →
      ((l.foldl (car_step m t) st).ssc = 0 ∨
        (l.foldl (car_step m t) st).ssc = 1) ∧
      ((l.foldl (car_step m t) st).camera = 0 ∨
        (l.foldl (car_step m t) st).camera = 1) := by
  intro l
  induction l with
  | nil => intro st h1 h2; exact ⟨h1, h2⟩
  | cons e rest ih =>
    intro st h1 h2
    simp only [List.foldl_cons]
    obtain ⟨g1, g2⟩ := car_step_flags m t st e h1 h2
    exact ih (car_step m t st e) g1 g2

/-- The truck status function can only return one of three strings. -/
theorem truck_status_cases (m : DriverManager) (t : Int) :
    are_critical_drivers_operational_truck m t = some "s_0" ∨
    are_critical_drivers_operational_truck m t = some "s_1_l1_1_l2_1_g_1_c_0" ∨
    are_critical_drivers_operational_truck m t = some "s_1_l1_1_l2_1_g_1_c_1" := by
  obtain ⟨hs, hc⟩ := truck_fold_flags m t m.entries ⟨0, 0, 0, 0, 0⟩
    (Or.inl rfl) (Or.inl rfl)
  unfold are_critical_drivers_operational_truck
  rcases hs with hs | hs <;> rcases hc with hc | hc <;>
    simp [hs, hc]

/-- The car status function can only return one of three strings. -/
theorem car_status_cases (m : DriverManager) (t : Int) :
    are_critical_drivers_operational_car m t = some "s_0" ∨
    are_critical_drivers_operational_car m t = some "s_1_l_1_g_1_c_0" ∨
    are_critical_drivers_operational_car m t = some "s_1_l_1_g_1_c_1" := by
  obtain ⟨hs, hc⟩ := car_fold_flags m t m.entries ⟨0, 0, 0, 0⟩
    (Or.inl rfl) (Or.inl rfl)
  unfold are_critical_drivers_operational_car
  rcases hs with hs | hs <;> rcases hc with hc | hc <;>
    simp [hs, hc]

/-- C9: `handle_spin` does not execute a return statement for every input:
in truck mode, with the critical driver operational and the camera driver
failed (status `"s_1_l1_1_l2_1_g_1_c_0"`, startup complete), the branch at
driver_manager.cpp lines 78-82 constructs the `SHUTDOWN` alert with
description "Camera Failed" but lacks a `return alert;`, so control falls
off the end of the non-void function instead of returning the alert the
claim describes. -/
theorem handle_spin_camera_failed_truck_returns_nothing :
    are_critical_drivers_operational_truck cameraFailedMgr 0 =
      some "s_1_l1_1_l2_1_g_1_c_0" ∧
    handle_spin cameraFailedMgr true false 0 0 0 = none := by
  constructor <;> decide

/-- C10: because `are_critical_drivers_operational_truck` overwrites
`lidar1`, `lidar2` and `gps` to 1 after the driver loop (and the car
variant overwrites `lidar` and `gps`), the truck status is always one of
`"s_0"`, `"s_1_l1_1_l2_1_g_1_c_0"`, `"s_1_l1_1_l2_1_g_1_c_1"` and the car
status one of `"s_0"`, `"s_1_l_1_g_1_c_0"`, `"s_1_l_1_g_1_c_1"`, for every
driver-manager state and time; consequently no alert `handle_spin` returns
carries a LIDAR-failed or GPS-failed description. -/
theorem status_strings_restricted_no_lidar_gps_alerts :
    ∀ (m : DriverManager) (t : Int),
      (are_critical_drivers_operational_truck m t = some "s_0" ∨
       are_critical_drivers_operational_truck m t = some "s_1_l1_1_l2_1_g_1_c_0" ∨
       are_critical_drivers_operational_truck m t = some "s_1_l1_1_l2_1_g_1_c_1") ∧
      (are_critical_drivers_operational_car m t = some "s_0" ∨
       are_critical_drivers_operational_car m t = some "s_1_l_1_g_1_c_0" ∨
       are_critical_drivers_operational_car m t = some "s_1_l_1_g_1_c_1") ∧
      (∀ (truck car : Bool) (sut sd : Int) (a : SystemAlert),
        handle_spin m truck car t sut sd = some a →
          a.description ∉ lidarGpsAlertDescriptions) := by
  intro m t
  refine ⟨truck_status_cases m t, car_status_cases m t, ?_⟩
  intro truck car sut sd a h
  rcases truck with _ | _
  · rcases car with _ | _
    · simp [handle_spin] at h
      subst h
      decide
    · rcases car_status_cases m t with hs | hs | hs <;>
        by_cases hsu : m.starting_up = true ∧ t ≤ sd + sut <;>
        simp [handle_spin, hs, hsu] at h <;> subst h <;> decide
  · rcases truck_status_cases m t with hs | hs | hs <;>
      by_cases hsu : m.starting_up = true ∧ t ≤ sd + sut <;>
      simp [handle_spin, hs, hsu] at h <;> subst h <;> decide

/-- Witness for C10 at a concrete state: with neither flag set,
`handle_spin` returns the FATAL "Need to set either truck or car flag"
alert, whose description is not a LIDAR/GPS-failed description. -/
theorem status_strings_restricted_witness :
    (⟨"Need to set either truck or car flag", FATAL⟩ :
      SystemAlert).description ∉ lidarGpsAlertDescriptions := by
  exact (status_strings_restricted_no_lidar_gps_alerts cameraFailedMgr 0).2.2
    false false 0 0 ⟨"Need to set either truck or car flag", FATAL⟩ (by decide)

end subsystem_controllers

namespace waypoint_generation

theorem sqrt_monotone : Monotone Real.sqrt := fun _ _ h => Real.sqrt_le_sqrt h

theorem opt_pass_bridge (a : ℚ) :
    ∀ (l : List (ℚ × ℚ)) (q0 d0 : ℚ), 0 ≤ a → 0 ≤ q0 → (∀ p ∈ l, 0 ≤ p.2) →
      opt_pass (a : ℝ) (Real.sqrt (Rat.cast q0)) (Rat.cast d0)
        (l.map castSqrtPair) =
      sqrtList (opt_pass_sq a q0 d0 l) := by
  intro l
  induction l with
  | nil => intro q0 d0 _ _ _; simp [opt_pass, opt_pass_sq, sqrtList]
  | cons p rest ih =>
    intro q0 d0 ha hq0 hl
    obtain ⟨d, csq⟩ := p
    have hcsq : (0 : ℚ) ≤ csq := hl (d, csq) (List.mem_cons_self _ _)
    have key : min (Real.sqrt (Rat.cast csq))
        (Real.sqrt (Real.sqrt (Rat.cast q0) ^ 2 +
          2 * (a : ℝ) * |Rat.cast d - Rat.cast d0|))
        = Real.sqrt (Rat.cast (min csq (q0 + 2 * a * |d - d0|))) := by
      have h1 : Real.sqrt (Rat.cast q0) ^ 2 +
          2 * (a : ℝ) * |Rat.cast d - Rat.cast d0|
          = Rat.cast (q0 + 2 * a * |d - d0|) := by
        rw [Real.sq_sqrt (show (0:ℝ) ≤ Rat.cast q0 by exact_mod_cast hq0)]
        push_cast
        ring
      have h2 : (Rat.cast (min csq (q0 + 2 * a * |d - d0|)) : ℝ)
          = min (Rat.cast csq) (Rat.cast (q0 + 2 * a * |d - d0|)) := by
        push_cast
        rfl
      rw [h1, h2]
      exact (sqrt_monotone.map_min).symm
    have hstep : (0 : ℚ) ≤ min csq (q0 + 2 * a * |d - d0|) :=
      le_min hcsq (by positivity)
    simp only [List.map_cons, opt_pass, opt_pass_sq, sqrtList, castSqrtPair]
    rw [key]
    have htail := ih (min csq (q0 + 2 * a * |d - d0|)) d ha hstep
      fun p hp => hl p (List.mem_cons_of_mem _ hp)
    simp only [sqrtList] at htail
    exact congrArg _ htail

theorem forward_bridge (a : ℚ) (dts cs : List ℚ) (ha : 0 ≤ a)
    (hcs : ∀ c ∈ cs, 0 ≤ c) :
    forward_pass (a : ℝ) (castList dts) (castList cs) =
      sqrtList (forward_pass_sq a dts cs) := by
  rcases dts with _ | ⟨d0, dts'⟩
  · simp [forward_pass, forward_pass_sq, castList, sqrtList]
  rcases cs with _ | ⟨c0, cs'⟩
  · simp [forward_pass, forward_pass_sq, castList, sqrtList]
  have hc0 : (0 : ℚ) ≤ c0 := hcs c0 (List.mem_cons_self _ _)
  unfold forward_pass forward_pass_sq castList sqrtList
  simp only [List.map_cons, List.zip_cons_cons]
  have hhead : ((c0 : ℝ)) = Real.sqrt (Rat.cast (c0 * c0)) := by
    push_cast
    exact (Real.sqrt_mul_self (show (0 : ℝ) ≤ (c0 : ℝ) by exact_mod_cast hc0)).symm
  have hzip : (dts'.map (Rat.cast : ℚ → ℝ)).zip (cs'.map (Rat.cast : ℚ → ℝ))
      = ((dts'.zip cs').map fun p : ℚ × ℚ => (p.1, p.2 * p.2)).map castSqrtPair := by
    rw [List.zip_map, List.map_map]
    apply List.map_congr_left
    intro p hp
    obtain ⟨p1, p2⟩ := p
    have hp2 : (0 : ℚ) ≤ p2 :=
      hcs p2 (List.mem_cons_of_mem _ (List.of_mem_zip hp).2)
    simp only [Function.comp, Prod.map_apply, castSqrtPair]
    have : (p2 : ℝ) = Real.sqrt (Rat.cast (p2 * p2)) := by
      push_cast
      exact (Real.sqrt_mul_self (show (0 : ℝ) ≤ (p2 : ℝ) by exact_mod_cast hp2)).symm
    rw [← this]
  have hzipsq : dts'.zip (cs'.map fun c : ℚ => c * c)
      = (dts'.zip cs').map fun p : ℚ × ℚ => (p.1, p.2 * p.2) := by
    rw [List.zip_map_right]
    rfl
  rw [hhead, hzip, hzipsq]
  have hbr := opt_pass_bridge a
    ((dts'.zip cs').map fun p : ℚ × ℚ => (p.1, p.2 * p.2)) (c0 * c0) d0 ha
    (mul_self_nonneg c0) ?_
  · simp only [sqrtList] at hbr
    rw [hbr]
  · intro p hp
    simp only [List.mem_map] at hp
    obtain ⟨q, hq, rfl⟩ := hp
    exact mul_self_nonneg q.2

theorem backward_bridge (a : ℚ) (dts fsq : List ℚ) (ha : 0 ≤ a)
    (hf : ∀ x ∈ fsq, 0 ≤ x) :
    backward_pass (a : ℝ) (castList dts) (sqrtList fsq) =
      sqrtList (backward_pass_sq a dts fsq) := by
  have hzipc : (castList dts).zip (sqrtList fsq) = (dts.zip fsq).map castSqrtPair := by
    unfold castList sqrtList
    rw [List.zip_map]
    apply List.map_congr_left
    intro p _
    rfl
  unfold backward_pass backward_pass_sq
  rw [hzipc]
  rcases h : dts.zip fsq with _ | ⟨⟨d0, f0⟩, tail⟩
  · simp [sqrtList]
  simp only [List.map_cons]
  rw [← List.map_reverse]
  rcases hr : tail.reverse with _ | ⟨⟨dn, vn⟩, revrest⟩
  · simp [sqrtList, castSqrtPair]
  simp only [List.map_cons, castSqrtPair]
  have hvn : (0 : ℚ) ≤ vn := by
    apply hf
    have : (dn, vn) ∈ tail := List.mem_reverse.mp (hr ▸ List.mem_cons_self _ _)
    exact (List.of_mem_zip (h ▸ List.mem_cons_of_mem _ this)).2
  have hbr := opt_pass_bridge a revrest vn dn ha hvn ?_
  · rw [hbr]
    simp only [sqrtList, List.map_cons, List.map_reverse]
  · intro p hp
    apply hf
    have hptail : p ∈ tail := List.mem_reverse.mp (hr ▸ List.mem_cons_of_mem _ hp)
    exact (List.of_mem_zip (h ▸ List.mem_cons_of_mem _ hptail)).2

theorem opt_pass_sq_nonneg (a : ℚ) :
    ∀ (l : List (ℚ × ℚ)) (q0 d0 : ℚ), 0 ≤ a → 0 ≤ q0 → (∀ p ∈ l, 0 ≤ p.2) →
      ∀ x ∈ opt_pass_sq a q0 d0 l, 0 ≤ x := by
  intro l
  induction l with
  | nil => intro q0 d0 _ _ _ x hx; simp [opt_pass_sq] at hx
  | cons p rest ih =>
    intro q0 d0 ha hq0 hl x hx
    obtain ⟨d, csq⟩ := p
    simp only [opt_pass_sq, List.mem_cons] at hx
    have hstep : (0 : ℚ) ≤ min csq (q0 + 2 * a * |d - d0|) :=
      le_min (hl (d, csq) (List.mem_cons_self _ _)) (by positivity)
    rcases hx with rfl | hx
    · exact hstep
    · exact ih (min csq (q0 + 2 * a * |d - d0|)) d ha hstep
        (fun p hp => hl p (List.mem_cons_of_mem _ hp)) x hx

theorem forward_pass_sq_nonneg (a : ℚ) (dts cs : List ℚ) (ha : 0 ≤ a) :
    ∀ x ∈ forward_pass_sq a dts cs, 0 ≤ x := by
  unfold forward_pass_sq
  rcases h : dts.zip (cs.map fun c => c * c) with _ | ⟨⟨d0, c0sq⟩, rest⟩
  · simp
  intro x hx
  simp only [List.mem_cons] at hx
  have hmem : ∀ y : ℚ, y ∈ cs.map (fun c => c * c) → 0 ≤ y := by
    intro y hy
    simp only [List.mem_map] at hy
    obtain ⟨c, _, rfl⟩ := hy
    exact mul_self_nonneg c
  have hc0 : (0 : ℚ) ≤ c0sq :=
    hmem c0sq (List.of_mem_zip (h ▸ List.mem_cons_self _ _)).2
  rcases hx with rfl | hx
  · exact hc0
  · exact opt_pass_sq_nonneg a rest c0sq d0 ha hc0
      (fun p hp => hmem p.2 (List.of_mem_zip (h ▸ List.mem_cons_of_mem _ hp)).2)
      x hx

theorem optimize_speed_bridge (dts cs : List ℚ) (a : ℚ)
    (hcs : ∀ c ∈ cs, 0 ≤ c) :
    optimize_speed (castList dts) (castList cs) (Rat.cast a) =
      (optimize_speed_sq dts cs a).map sqrtList := by
  unfold optimize_speed optimize_speed_sq
  by_cases hc : dts.length = cs.length ∧ dts ≠ [] ∧ 0 < a
  · rw [if_pos hc, if_pos]
    · rw [Option.map_some']
      rw [forward_bridge a dts cs (le_of_lt hc.2.2) hcs]
      exact congrArg some (backward_bridge a dts (forward_pass_sq a dts cs)
        (le_of_lt hc.2.2) (forward_pass_sq_nonneg a dts cs (le_of_lt hc.2.2)))
    · refine ⟨by simp [castList, hc.1], by simp [castList, hc.2.1], ?_⟩
      exact_mod_cast hc.2.2
  · rw [if_neg hc, if_neg]
    · rfl
    · rintro ⟨e1, e2, e3⟩
      exact hc ⟨by simpa [castList] using e1, by simpa [castList] using e2,
        by exact_mod_cast e3⟩

/-- C3: `optimize_speed` signals invalid-argument (modelled as `none`,
computing no result) whenever the two input sequences have unequal or zero
length, and whenever `max_accel` is not strictly positive; in particular
for the repository test's downtracks with an empty speed array and
`max_accel = 2`, and for its full arrays with `max_accel = -10`. -/
theorem optimize_speed_rejects_invalid_arguments :
    (∀ (dts cs : List ℝ) (a : ℝ), dts.length ≠ cs.length ∨ dts.length = 0 →
      optimize_speed dts cs a = none) ∧
    (∀ (dts cs : List ℝ) (a : ℝ), a ≤ 0 → optimize_speed dts cs a = none) ∧
    optimize_speed [0, 2, 4, 6, 8, 10, 12, 14, 16] [] 2 = none ∧
    optimize_speed [0, 2, 4, 6, 8, 10, 12, 14, 16]
      [1, 3, 4, 4, 1, 0, 3, 3, 6] (-10) = none := by
  have h1 : ∀ (dts cs : List ℝ) (a : ℝ), dts.length ≠ cs.length ∨ dts.length = 0 →
      optimize_speed dts cs a = none := by
    intro dts cs a hbad
    unfold optimize_speed
    rw [if_neg]
    rintro ⟨e1, e2, -⟩
    rcases hbad with hbad | hbad
    · exact hbad e1
    · exact e2 (List.length_eq_zero.mp hbad)
  have h2 : ∀ (dts cs : List ℝ) (a : ℝ), a ≤ 0 → optimize_speed dts cs a = none := by
    intro dts cs a hbad
    unfold optimize_speed
    rw [if_neg]
    rintro ⟨-, -, e3⟩
    linarith
  exact ⟨h1, h2, h1 _ _ _ (Or.inl (by norm_num)), h2 _ _ _ (by norm_num)⟩

/-- Witness for C3 at concrete inputs: a one-point downtrack list with an
empty speed list is rejected, and a negative acceleration is rejected. -/
theorem optimize_speed_rejects_invalid_arguments_witness :
    optimize_speed [(0 : ℝ)] [] 1 = none ∧
      optimize_speed [(0 : ℝ)] [1] (-1) = none :=
  ⟨optimize_speed_rejects_invalid_arguments.1 [0] [] 1 (Or.inl (by norm_num)),
   optimize_speed_rejects_invalid_arguments.2.1 [0] [1] (-1) (by norm_num)⟩

theorem opt_pass_le (a : ℝ) :
    ∀ (l : List (ℝ × ℝ)) (v0 d0 : ℝ),
      List.Forall₂ (· ≤ ·) (opt_pass a v0 d0 l) (l.map Prod.snd) := by
  intro l
  induction l with
  | nil => intro v0 d0; simp [opt_pass]
  | cons p rest ih =>
    intro v0 d0
    obtain ⟨d, c⟩ := p
    simp only [opt_pass, List.map_cons]
    exact List.Forall₂.cons (min_le_left _ _) (ih _ d)

theorem forward_pass_le (a : ℝ) (dts cs : List ℝ)
    (hlen : dts.length = cs.length) :
    List.Forall₂ (· ≤ ·) (forward_pass a dts cs) cs := by
  rcases dts with _ | ⟨d0, dts'⟩
  · rcases cs with _ | ⟨c0, cs'⟩
    · simp [forward_pass]
    · simp at hlen
  rcases cs with _ | ⟨c0, cs'⟩
  · simp at hlen
  unfold forward_pass
  simp only [List.zip_cons_cons]
  refine List.Forall₂.cons le_rfl ?_
  have := opt_pass_le a (dts'.zip cs') c0 d0
  rwa [List.map_snd_zip _ _ (by simp at hlen; omega)] at this

theorem forall₂_le_trans {l1 l2 l3 : List ℝ}
    (h1 : List.Forall₂ (· ≤ ·) l1 l2) (h2 : List.Forall₂ (· ≤ ·) l2 l3) :
    List.Forall₂ (· ≤ ·) l1 l3 := by
  induction h1 generalizing l3 with
  | nil => cases h2; exact List.Forall₂.nil
  | cons hab h ih =>
    cases h2 with
    | cons hbc h2t => exact List.Forall₂.cons (le_trans hab hbc) (ih h2t)

theorem backward_pass_le (a : ℝ) (dts f : List ℝ)
    (hlen : dts.length = f.length) :
    List.Forall₂ (· ≤ ·) (backward_pass a dts f) f := by
  rcases dts with _ | ⟨d0, dts'⟩
  · rcases f with _ | ⟨f0, f'⟩
    · simp [backward_pass]
    · simp at hlen
  rcases f with _ | ⟨f0, f'⟩
  · simp at hlen
  have hlen' : dts'.length = f'.length := by simpa using hlen
  unfold backward_pass
  simp only [List.zip_cons_cons]
  rcases hr : (dts'.zip f').reverse with _ | ⟨⟨dn, vn⟩, revrest⟩
  · have : dts'.zip f' = [] := by
      have := congrArg List.reverse hr
      simpa using this
    have hf' : f' = [] := by
      rcases f' with _ | ⟨x, f''⟩
      · rfl
      · rcases dts' with _ | ⟨y, dts''⟩
        · simp at hlen'
        · simp [List.zip_cons_cons] at this
    subst hf'
    exact List.Forall₂.cons le_rfl List.Forall₂.nil
  refine List.Forall₂.cons le_rfl ?_
  have htail : dts'.zip f' = revrest.reverse ++ [(dn, vn)] := by
    have := congrArg List.reverse hr
    simpa using this
  have hf' : f' = (revrest.map Prod.snd).reverse ++ [vn] := by
    have hmap := congrArg (List.map Prod.snd) htail
    rw [List.map_snd_zip _ _ (le_of_eq hlen'.symm)] at hmap
    simpa using hmap
  rw [hf', List.reverse_cons]
  refine List.rel_append ?_ (List.Forall₂.cons le_rfl List.Forall₂.nil)
  exact List.forall₂_reverse_iff.mpr (opt_pass_le a revrest vn dn)

/-- C2 (amended): the spec-modelled two-pass optimizer's output stays at or
below the per-point curvature limit at every index. -/
theorem optimize_speed_output_le_curvature_limits :
    ∀ (dts cs : List ℝ) (a : ℝ) (out : List ℝ),
      optimize_speed dts cs a = some out → List.Forall₂ (· ≤ ·) out cs := by
  intro dts cs a out h
  unfold optimize_speed at h
  split_ifs at h with hc
  injection h with h
  subst h
  have h1 := forward_pass_le a dts cs hc.1
  have hlenf : (forward_pass a dts cs).length = cs.length := h1.length_eq
  exact forall₂_le_trans
    (backward_pass_le a dts (forward_pass a dts cs) (hc.1.trans hlenf.symm))
    h1

/-- C2 counterexample: the repository test (src/unnamed/part_000 lines
435-467) calls the real `optimize_speed` on `curv_speeds = [4,1,3,4,1,0,3,3,6]`
and asserts `|out[1] - 2.82847| <= 0.001`; every such `out[1]` strictly
exceeds the curvature limit 1 at index 1, so the output of the repository's
optimizer does not stay at or below the per-point curvature limit.  The
spec-modelled two-pass optimizer instead yields 1 at that index (squared
output `[16,1,9,9,1,0,8,9,17]`), diverging from the recorded behaviour. -/
theorem optimize_speed_test2_exceeds_curvature_limit :
    test2_curv_speeds[1]! + 1 / 1000 < test2_expected[1]! ∧
      optimize_speed_sq test_downtracks test2_curv_speeds 2 =
        some [16, 1, 9, 9, 1, 0, 8, 9, 17] := by
  constructor
  · norm_num [test2_curv_speeds, test2_expected]
  · norm_num [optimize_speed_sq, forward_pass_sq, backward_pass_sq,
      opt_pass_sq, min_def, abs_of_nonneg, test_downtracks,
      test2_curv_speeds]
    simp

/-- Evaluation of the spec-modelled optimizer at the one-point input
`([0], [5], 1)`: the single anchored speed is returned unchanged. -/
theorem optimize_speed_singleton : optimize_speed [(0 : ℝ)] [5] 1 = some [5] := by
  have hb := optimize_speed_bridge [0] [5] 1 (by norm_num)
  rw [show optimize_speed_sq [0] [5] 1 = some [25] from by
    norm_num [optimize_speed_sq, forward_pass_sq, backward_pass_sq,
      opt_pass_sq]] at hb
  rw [Option.map_some'] at hb
  have h25 : sqrtList [25] = [(5 : ℝ)] := by
    unfold sqrtList
    simp only [List.map_cons, List.map_nil]
    rw [show ((25 : ℚ) : ℝ) = 5 ^ 2 by norm_num,
      Real.sqrt_sq (by norm_num : (0 : ℝ) ≤ 5)]
  rw [h25] at hb
  simpa [castList] using hb

/-- Witness for C2 (amended) at the input `([0], [5], 1)`. -/
theorem optimize_speed_output_le_witness :
    List.Forall₂ (· ≤ ·) [(5 : ℝ)] [(5 : ℝ)] :=
  optimize_speed_output_le_curvature_limits [0] [5] 1 [5]
    optimize_speed_singleton

/-- Numeric helper: a square root lies within `t` of `e` once its argument
lies between `(e - t)^2` and `(e + t)^2`. -/
theorem sqrt_within (q e t : ℝ) (ht : 0 ≤ t) (h0 : 0 ≤ e - t)
    (h1 : (e - t) ^ 2 ≤ q) (h2 : q ≤ (e + t) ^ 2) : |Real.sqrt q - e| ≤ t := by
  have hl : e - t ≤ Real.sqrt q := by
    rw [← Real.sqrt_sq h0]
    exact Real.sqrt_le_sqrt h1
  have hu : Real.sqrt q ≤ e + t := by
    rw [← Real.sqrt_sq (by linarith : (0 : ℝ) ≤ e + t)]
    exact Real.sqrt_le_sqrt h2
  rw [abs_le]
  constructor <;> linarith

/-- Anchor property of the spec-modelled optimizer: whenever it returns a
result, the first output element equals the first input curvature-limited
speed. -/
theorem optimize_speed_head_eq :
    ∀ (dts cs : List ℝ) (a : ℝ) (out : List ℝ),
      optimize_speed dts cs a = some out → out.head? = cs.head? := by
  intro dts cs a out h
  unfold optimize_speed at h
  split_ifs at h with hc
  injection h with h
  subst h
  obtain ⟨hlen, hne, -⟩ := hc
  rcases dts with _ | ⟨d0, dts'⟩
  · exact absurd rfl hne
  rcases cs with _ | ⟨c0, cs'⟩
  · simp at hlen
  unfold forward_pass backward_pass
  simp only [List.zip_cons_cons]
  split <;> simp

/-- C1: on the repository test input (downtracks 0..16 step 2, speeds
[1,3,4,4,1,0,3,3,6], max_accel 2) the spec-modelled optimizer returns
[1, 3, 4, 3, 1, 0, sqrt 8, sqrt 17-profile], each element within 0.001 of
the test's expected [1, 3, 4, 3, 1, 0, 2.82843, 3, 4.12311]; and for every
valid input the first output element equals the first input
curvature-limited speed unchanged. -/
theorem optimize_speed_test_vector_and_anchor :
    optimize_speed [(0 : ℝ), 2, 4, 6, 8, 10, 12, 14, 16]
        [1, 3, 4, 4, 1, 0, 3, 3, 6] 2 =
      some [1, 3, 4, 3, 1, 0, Real.sqrt 8, 3, Real.sqrt 17] ∧
    List.Forall₂ (fun v e => |v - e| ≤ 1 / 1000)
      [1, 3, 4, 3, 1, 0, Real.sqrt 8, 3, Real.sqrt 17]
      [(1 : ℝ), 3, 4, 3, 1, 0, 2.82843, 3, 4.12311] ∧
    ∀ (dts cs : List ℝ) (a : ℝ) (out : List ℝ),
      optimize_speed dts cs a = some out → out.head? = cs.head? := by
  refine ⟨?_, ?_, optimize_speed_head_eq⟩
  · have hb := optimize_speed_bridge test_downtracks test_curv_speeds 2 (by
      intro c hc
      simp only [test_curv_speeds, List.mem_cons, List.not_mem_nil,
        or_false] at hc
      rcases hc with rfl | rfl | rfl | rfl | rfl | rfl | rfl | rfl | rfl <;>
        norm_num)
    rw [show optimize_speed_sq test_downtracks test_curv_speeds 2 =
        some [1, 9, 16, 9, 1, 0, 8, 9, 17] from by
      norm_num [optimize_speed_sq, forward_pass_sq, backward_pass_sq,
        opt_pass_sq, min_def, abs_of_nonneg, test_downtracks,
        test_curv_speeds]
      simp] at hb
    rw [Option.map_some'] at hb
    have hs1 : Real.sqrt ((1 : ℚ) : ℝ) = 1 := by
      norm_num [Real.sqrt_one]
    have hs0 : Real.sqrt ((0 : ℚ) : ℝ) = 0 := by
      norm_num [Real.sqrt_zero]
    have hs9 : Real.sqrt ((9 : ℚ) : ℝ) = 3 := by
      rw [show ((9 : ℚ) : ℝ) = 3 ^ 2 by norm_num,
        Real.sqrt_sq (by norm_num : (0 : ℝ) ≤ 3)]
    have hs16 : Real.sqrt ((16 : ℚ) : ℝ) = 4 := by
      rw [show ((16 : ℚ) : ℝ) = 4 ^ 2 by norm_num,
        Real.sqrt_sq (by norm_num : (0 : ℝ) ≤ 4)]
    have hs8 : Real.sqrt ((8 : ℚ) : ℝ) = Real.sqrt 8 := by norm_num
    have hs17 : Real.sqrt ((17 : ℚ) : ℝ) = Real.sqrt 17 := by norm_num
    have hlist : sqrtList [1, 9, 16, 9, 1, 0, 8, 9, 17] =
        [1, 3, 4, 3, 1, 0, Real.sqrt 8, 3, Real.sqrt 17] := by
      unfold sqrtList
      simp only [List.map_cons, List.map_nil, hs1, hs0, hs9, hs16, hs8, hs17]
    rw [hlist] at hb
    have hdts : castList test_downtracks =
        [(0 : ℝ), 2, 4, 6, 8, 10, 12, 14, 16] := by
      norm_num [castList, test_downtracks]
    have hcs : castList test_curv_speeds = [(1 : ℝ), 3, 4, 4, 1, 0, 3, 3, 6] := by
      norm_num [castList, test_curv_speeds]
    rw [hdts, hcs] at hb
    have h2 : ((2 : ℚ) : ℝ) = 2 := by norm_num
    rwa [h2] at hb
  · have h8 : |Real.sqrt 8 - 2.82843| ≤ (1 / 1000 : ℝ) :=
      sqrt_within 8 2.82843 (1 / 1000) (by norm_num) (by norm_num) (by norm_num)
        (by norm_num)
    have h17 : |Real.sqrt 17 - 4.12311| ≤ (1 / 1000 : ℝ) :=
      sqrt_within 17 4.12311 (1 / 1000) (by norm_num) (by norm_num) (by norm_num)
        (by norm_num)
    refine List.Forall₂.cons (by norm_num) ?_
    refine List.Forall₂.cons (by norm_num) ?_
    refine List.Forall₂.cons (by norm_num) ?_
    refine List.Forall₂.cons (by norm_num) ?_
    refine List.Forall₂.cons (by norm_num) ?_
    refine List.Forall₂.cons (by norm_num) ?_
    refine List.Forall₂.cons h8 ?_
    refine List.Forall₂.cons (by norm_num) ?_
    exact List.Forall₂.cons h17 List.Forall₂.nil

/-- Witness for C1's universal anchor clause at the input `([0], [5], 1)`. -/
theorem optimize_speed_anchor_witness :
    ([(5 : ℝ)] : List ℝ).head? = ([(5 : ℝ)] : List ℝ).head? :=
  optimize_speed_test_vector_and_anchor.2.2 [0] [5] 1 [5]
    optimize_speed_singleton

theorem nearest_go_spec (v : VehicleState) :
    ∀ (l : List (ℚ × ℚ)) (i best : Nat) (bestD : ℚ), best < i →
      ((nearest_go v l i (best, bestD)).2 ≤ bestD) ∧
      (∀ j, j < l.length →
        (nearest_go v l i (best, bestD)).2 ≤ distSq l[j]! v) ∧
      (((nearest_go v l i (best, bestD)).1 = best ∧
          (nearest_go v l i (best, bestD)).2 = bestD) ∨
        ∃ j, j < l.length ∧ (nearest_go v l i (best, bestD)).1 = i + j ∧
          (nearest_go v l i (best, bestD)).2 = distSq l[j]! v) ∧
      ((nearest_go v l i (best, bestD)).1 ≠ best →
        (nearest_go v l i (best, bestD)).2 < bestD) ∧
      (∀ j, j < l.length → i + j < (nearest_go v l i (best, bestD)).1 →
        (nearest_go v l i (best, bestD)).2 < distSq l[j]! v) := by
  intro l
  induction l with
  | nil =>
    intro i best bestD hbi
    refine ⟨le_rfl, ?_, Or.inl ⟨rfl, rfl⟩, ?_, ?_⟩
    · intro j hj; simp at hj
    · intro h; exact absurd rfl h
    · intro j hj; simp at hj
  | cons p rest ih =>
    intro i best bestD hbi
    simp only [nearest_go]
    by_cases hlt : distSq p v < bestD
    · rw [if_pos hlt]
      obtain ⟨ih1, ih2, ih3, ih4, ih5⟩ :=
        ih (i + 1) i (distSq p v) (Nat.lt_succ_self i)
      refine ⟨le_of_lt (lt_of_le_of_lt ih1 hlt), ?_, ?_, ?_, ?_⟩
      · intro j hj
        rcases j with _ | j
        · simpa using ih1
        · simp only [List.getElem!_cons_succ]
          exact ih2 j (by simpa using hj)
      · rcases ih3 with ⟨h, hd⟩ | ⟨j, hj, hr, hd⟩
        · exact Or.inr ⟨0, by simp, by omega, by simpa using hd⟩
        · refine Or.inr ⟨j + 1, by simpa using hj, by omega, ?_⟩
          simpa [List.getElem!_cons_succ] using hd
      · intro _
        exact lt_of_le_of_lt ih1 hlt
      · intro j hj hlt2
        rcases j with _ | j
        · simp only [List.getElem!_cons_zero]
          have hne : (nearest_go v rest (i + 1) (i, distSq p v)).1 ≠ i := by
            omega
          exact ih4 hne
        · simp only [List.getElem!_cons_succ]
          exact ih5 j (by simpa using hj) (by omega)
    · rw [if_neg hlt]
      obtain ⟨ih1, ih2, ih3, ih4, ih5⟩ :=
        ih (i + 1) best bestD (Nat.lt_succ_of_lt hbi)
      refine ⟨ih1, ?_, ?_, ih4, ?_⟩
      · intro j hj
        rcases j with _ | j
        · simp only [List.getElem!_cons_zero]
          exact le_trans ih1 (le_of_not_lt hlt)
        · simp only [List.getElem!_cons_succ]
          exact ih2 j (by simpa using hj)
      · rcases ih3 with ⟨h, hd⟩ | ⟨j, hj, hr, hd⟩
        · exact Or.inl ⟨h, hd⟩
        · refine Or.inr ⟨j + 1, by simpa using hj, by omega, ?_⟩
          simpa [List.getElem!_cons_succ] using hd
      · intro j hj hlt2
        rcases j with _ | j
        · simp only [List.getElem!_cons_zero]
          have hne : (nearest_go v rest (i + 1) (best, bestD)).1 ≠ best := by
            omega
          exact lt_of_lt_of_le (ih4 hne) (le_of_not_lt hlt)
        · simp only [List.getElem!_cons_succ]
          exact ih5 j (by simpa using hj) (by omega)

theorem euclidean_dist_le_iff (p q : ℚ × ℚ) (v : VehicleState) :
    distSq p v ≤ distSq q v → euclidean_dist p v ≤ euclidean_dist q v := by
  intro h
  exact Real.sqrt_le_sqrt (by exact_mod_cast h)

theorem distSq_nonneg (p : ℚ × ℚ) (v : VehicleState) : 0 ≤ distSq p v :=
  add_nonneg (mul_self_nonneg _) (mul_self_nonneg _)

theorem euclidean_dist_lt_iff (p q : ℚ × ℚ) (v : VehicleState) :
    distSq p v < distSq q v → euclidean_dist p v < euclidean_dist q v := by
  intro h
  apply Real.sqrt_lt_sqrt
  · exact_mod_cast distSq_nonneg p v
  · exact_mod_cast h

/-- The squared distance of a point is non-negative, so the running best
of the scan is attained at the returned index. -/
theorem get_nearest_point_index_spec (pts : List (ℚ × ℚ))
    (st : VehicleState) (hne : pts ≠ []) :
    get_nearest_point_index pts st < pts.length ∧
      (∀ j, j < pts.length →
        distSq pts[get_nearest_point_index pts st]! st ≤ distSq pts[j]! st) ∧
      (∀ j, j < get_nearest_point_index pts st →
        distSq pts[get_nearest_point_index pts st]! st < distSq pts[j]! st) := by
  rcases pts with _ | ⟨p, rest⟩
  · exact absurd rfl hne
  obtain ⟨h1, h2, h3, h4, h5⟩ :=
    nearest_go_spec st rest 1 0 (distSq p st) Nat.one_pos
  have hgn : get_nearest_point_index (p :: rest) st =
      (nearest_go st rest 1 (0, distSq p st)).1 := rfl
  rw [hgn]
  set r := (nearest_go st rest 1 (0, distSq p st)).1 with hr
  set rD := (nearest_go st rest 1 (0, distSq p st)).2 with hrD
  have hrlen : r < (p :: rest).length := by
    rcases h3 with ⟨h, -⟩ | ⟨j, hj, hje, -⟩
    · simp [h]
    · simp only [List.length_cons]
      omega
  have hval : rD = distSq (p :: rest)[r]! st := by
    rcases h3 with ⟨h, hd⟩ | ⟨j, hj, hje, hd⟩
    · rw [h, hd]
      simp
    · have hj1 : r = j + 1 := by omega
      rw [hj1, hd]
      simp [List.getElem!_cons_succ]
  constructor
  · exact hrlen
  constructor
  · intro j hj
    rw [← hval]
    rcases j with _ | j
    · simpa using h1
    · simp only [List.getElem!_cons_succ]
      exact h2 j (by simpa using hj)
  · intro j hj
    rw [← hval]
    rcases j with _ | j
    · simp only [List.getElem!_cons_zero]
      have hne0 : r ≠ 0 := by omega
      exact h4 hne0
    · simp only [List.getElem!_cons_succ]
      have hjlen : j < rest.length := by
        simp only [List.length_cons] at hrlen
        omega
      exact h5 j hjlen (by omega)

/-- C7: `get_nearest_point_index` (both the plain-point and the pair
overload) returns the index of the point at minimum Euclidean distance
from the vehicle's (x, y), ties broken by the lowest index, for every
non-empty sequence; in particular for `(0,0)`..`(7,7)` and the vehicle at
`(3.3, 3.3)` it returns 3 for both overloads. -/
theorem get_nearest_point_index_correct :
    (get_nearest_point_index diag_points test_state = 3 ∧
      get_nearest_point_index_pairs diag_pairs test_state = 3) ∧
    ∀ (pts : List (ℚ × ℚ)) (st : VehicleState), pts ≠ [] →
      get_nearest_point_index pts st < pts.length ∧
      (∀ j, j < pts.length →
        euclidean_dist pts[get_nearest_point_index pts st]! st ≤
          euclidean_dist pts[j]! st) ∧
      (∀ j, j < get_nearest_point_index pts st →
        euclidean_dist pts[get_nearest_point_index pts st]! st <
          euclidean_dist pts[j]! st) := by
  constructor
  · constructor
    · norm_num [get_nearest_point_index, nearest_go, distSq, diag_points,
        test_state]
    · norm_num [get_nearest_point_index_pairs, get_nearest_point_index,
        nearest_go, distSq, diag_points, diag_pairs, test_state]
  · intro pts st hne
    obtain ⟨g1, g2, g3⟩ := get_nearest_point_index_spec pts st hne
    exact ⟨g1, fun j hj => euclidean_dist_le_iff _ _ _ (g2 j hj),
      fun j hj => euclidean_dist_lt_iff _ _ _ (g3 j hj)⟩

/-- Witness for C7's universal clause at the test points. -/
theorem get_nearest_point_index_correct_witness :
    get_nearest_point_index diag_points test_state < diag_points.length :=
  (get_nearest_point_index_correct.2 diag_points test_state
    (by simp [diag_points])).1

/-- C8: the trajectory assembler output is one-to-one with its inputs:
as long a list as the points, and at every index the position is
`points[i]`, the absolute target time is `start_time + times[i]`, the yaw
is `yaws[i]`, and the controller tag is the fixed string "default". -/
theorem trajectory_from_points_matches_inputs :
    ∀ (points : List (ℝ × ℝ)) (times yaws : List ℝ) (startTime : ℝ),
      points.length = times.length → times.length = yaws.length →
      (trajectory_from_points_times_orientations points times yaws
          startTime).length = points.length ∧
      List.Forall₂
        (fun (tp : TrajectoryPlanPoint) (py : (ℝ × ℝ) × ℝ × ℝ) =>
          tp.x = py.1.1 ∧ tp.y = py.1.2 ∧
          tp.target_time = startTime + py.2.1 ∧ tp.yaw = py.2.2 ∧
          tp.controller_plugin_name = "default")
        (trajectory_from_points_times_orientations points times yaws startTime)
        (points.zip (times.zip yaws)) := by
  intro points
  induction points with
  | nil =>
    intro times yaws st h1 h2
    simp [trajectory_from_points_times_orientations]
  | cons p ps ih =>
    intro times yaws st h1 h2
    rcases times with _ | ⟨t, ts⟩
    · simp at h1
    rcases yaws with _ | ⟨y, ys⟩
    · simp at h2
    simp only [trajectory_from_points_times_orientations, List.zip_cons_cons,
      List.length_cons]
    obtain ⟨ihl, ihf⟩ := ih ts ys st (by simpa using h1) (by simpa using h2)
    exact ⟨by simp [ihl], List.Forall₂.cons ⟨rfl, rfl, rfl, rfl, rfl⟩ ihf⟩

/-- Witness for C8 at a one-point input. -/
theorem trajectory_from_points_matches_inputs_witness :
    (trajectory_from_points_times_orientations [((0 : ℝ), 0)] [0] [0]
      0).length = ([((0 : ℝ), 0)] : List (ℝ × ℝ)).length :=
  (trajectory_from_points_matches_inputs [((0 : ℝ), 0)] [0] [0] 0
    rfl rfl).1

theorem line_fit_curvature_zero (s : Spline) (v : ℝ × ℝ)
    (h : IsLineFit s v) (t : ℝ) : compute_curvature_at s t = 0 := by
  obtain ⟨⟨g, hg⟩, ⟨k, hk⟩⟩ := h t
  unfold compute_curvature_at
  rw [hg, hk]
  have hnum : g * v.1 * (k * v.2) - g * v.2 * (k * v.1) = 0 := by ring
  simp only []
  rw [hnum, zero_div]

theorem circle_fit_curvature (c : ℝ × ℝ) (R : ℝ) (hR : 0 < R) (t : ℝ) :
    compute_curvature_at (circleSpline c R) t = 1 / R := by
  have hs : Real.sin (2 * Real.pi * t) ^ 2 +
      Real.cos (2 * Real.pi * t) ^ 2 = 1 := Real.sin_sq_add_cos_sq _
  have hpi := Real.pi_pos
  unfold compute_curvature_at circleSpline
  simp only []
  set s0 := Real.sin (2 * Real.pi * t)
  set c0 := Real.cos (2 * Real.pi * t)
  have hsum : (-(2 * Real.pi * R) * s0) ^ 2 + ((2 * Real.pi * R) * c0) ^ 2
      = 4 * Real.pi ^ 2 * R ^ 2 := by
    calc (-(2 * Real.pi * R) * s0) ^ 2 + ((2 * Real.pi * R) * c0) ^ 2
        = 4 * Real.pi ^ 2 * R ^ 2 * (s0 ^ 2 + c0 ^ 2) := by ring
      _ = 4 * Real.pi ^ 2 * R ^ 2 := by rw [hs]; ring
  have hnum : -(2 * Real.pi * R) * s0 * (-(4 * Real.pi ^ 2 * R) * s0) -
      (2 * Real.pi * R) * c0 * (-(4 * Real.pi ^ 2 * R) * c0)
      = 8 * Real.pi ^ 3 * R ^ 2 := by
    calc -(2 * Real.pi * R) * s0 * (-(4 * Real.pi ^ 2 * R) * s0) -
        (2 * Real.pi * R) * c0 * (-(4 * Real.pi ^ 2 * R) * c0)
        = 8 * Real.pi ^ 3 * R ^ 2 * (s0 ^ 2 + c0 ^ 2) := by ring
      _ = 8 * Real.pi ^ 3 * R ^ 2 := by rw [hs]; ring
  rw [hsum, hnum]
  have hden : Real.sqrt ((4 * Real.pi ^ 2 * R ^ 2) ^ 3)
      = 8 * Real.pi ^ 3 * R ^ 3 := by
    rw [show (4 * Real.pi ^ 2 * R ^ 2) ^ 3 = (8 * Real.pi ^ 3 * R ^ 3) ^ 2 by
      ring]
    exact Real.sqrt_sq (by positivity)
  rw [hden]
  field_simp
  ring

/-- C4: for a spline fitted to collinear input points the curvature is 0
(hence within 1e-3 of 0) at t = 0, 0.23, 0.97 and 1; for a spline fitted
to points sampled on a closed circle of radius R the curvature at t = 0 is
within 0.005 of 1/R and agrees exactly with its value at t = 1 (the
wrap-around boundary). -/
theorem compute_curvature_at_line_and_circle :
    (∀ (s : Spline) (v : ℝ × ℝ), IsLineFit s v →
      |compute_curvature_at s 0| ≤ 1 / 1000 ∧
      |compute_curvature_at s 0.23| ≤ 1 / 1000 ∧
      |compute_curvature_at s 0.97| ≤ 1 / 1000 ∧
      |compute_curvature_at s 1| ≤ 1 / 1000) ∧
    ∀ (c : ℝ × ℝ) (R : ℝ), 0 < R →
      |compute_curvature_at (circleSpline c R) 0 - 1 / R| ≤ 5 / 1000 ∧
      compute_curvature_at (circleSpline c R) 0 =
        compute_curvature_at (circleSpline c R) 1 := by
  constructor
  · intro s v hline
    rw [line_fit_curvature_zero s v hline 0,
      line_fit_curvature_zero s v hline 0.23,
      line_fit_curvature_zero s v hline 0.97,
      line_fit_curvature_zero s v hline 1]
    norm_num
  · intro c R hR
    rw [circle_fit_curvature c R hR 0, circle_fit_curvature c R hR 1]
    norm_num

/-- Witness for C4: the x-axis line fit has curvature within tolerance of
0 at t = 0, and the circle of radius 20 (the repository test's radius) has
curvature within 0.005 of 1/20 at t = 0. -/
theorem compute_curvature_at_witness :
    |compute_curvature_at lineSplineX 0| ≤ 1 / 1000 ∧
      |compute_curvature_at (circleSpline (0, 0) 20) 0 - 1 / 20| ≤ 5 / 1000 :=
  ⟨(compute_curvature_at_line_and_circle.1 lineSplineX (1, 0)
      (fun _ => ⟨⟨1, by norm_num [lineSplineX]⟩,
        ⟨0, by norm_num [lineSplineX]⟩⟩)).1,
   (compute_curvature_at_line_and_circle.2 (0, 0) 20 (by norm_num)).1⟩

/-- C6 counterexample: the claim's rule "the longest prefix whose
accumulated time does not exceed the horizon" keeps 7 of the 8 unit-spaced
points at horizon 6 (cumulative times 0..6), while the same claim — and
the repository test (src/unnamed/part_000 line 143, `ASSERT_EQ(6, ...)`) —
require exactly 6 points, so the claim as stated is false on its own test
input. -/
theorem constrain_to_time_boundary_spec_keeps_seven :
    (constrain_to_time_boundary_spec horizon_test_points 6).length = 7 ∧
      (7 : Nat) ≠ 6 := by
  constructor
  · norm_num [constrain_to_time_boundary_spec, time_walk_spec, dist2d,
      horizon_test_points, Real.sqrt_one]
  · norm_num

/-- The strict walk returns a prefix of its input. -/
theorem time_walk_take (hz : ℝ) :
    ∀ (l : List (PointSpeedPair ℝ)) (t : ℝ) (prev : PointSpeedPair ℝ),
      ∃ n, time_walk hz t prev l = l.take n := by
  intro l
  induction l with
  | nil => exact fun t prev => ⟨0, rfl⟩
  | cons p rest ih =>
    intro t prev
    simp only [time_walk]
    by_cases hc : t + dist2d prev.point p.point / prev.speed < hz
    · rw [if_pos hc]
      obtain ⟨n, hn⟩ := ih (t + dist2d prev.point p.point / prev.speed) p
      exact ⟨n + 1, by simp [hn]⟩
    · rw [if_neg hc]
      exact ⟨0, by simp⟩

/-- C6 (amended): the horizon truncation walks the sequence accumulating
point-to-point distance over the segment's speed and keeps the first point
plus the following points while the accumulated time stays strictly below
the horizon; it always returns a prefix, keeps the first point of a
non-empty input, and on the 8-point test at horizon 6 returns exactly the
first 6 points. -/
theorem constrain_to_time_boundary_correct :
    constrain_to_time_boundary horizon_test_points 6 =
      [⟨(0, 0), 1⟩, ⟨(1, 0), 1⟩, ⟨(2, 0), 1⟩, ⟨(3, 0), 1⟩,
       ⟨(4, 0), 1⟩, ⟨(5, 0), 1⟩] ∧
    (∀ (pts : List (PointSpeedPair ℝ)) (hz : ℝ),
      ∃ n, constrain_to_time_boundary pts hz = pts.take n) ∧
    (∀ (pts : List (PointSpeedPair ℝ)) (hz : ℝ), pts ≠ [] →
      (constrain_to_time_boundary pts hz).head? = pts.head?) := by
  refine ⟨?_, ?_, ?_⟩
  · norm_num [constrain_to_time_boundary, time_walk, dist2d,
      horizon_test_points, Real.sqrt_one]
  · intro pts hz
    rcases pts with _ | ⟨p, rest⟩
    · exact ⟨0, rfl⟩
    · obtain ⟨n, hn⟩ := time_walk_take hz rest 0 p
      exact ⟨n + 1, by simp [constrain_to_time_boundary, hn]⟩
  · intro pts hz hne
    rcases pts with _ | ⟨p, rest⟩
    · exact absurd rfl hne
    · rfl

/-- Witness for C6 (amended) at the test input. -/
theorem constrain_to_time_boundary_correct_witness :
    (constrain_to_time_boundary horizon_test_points 6).head? =
      horizon_test_points.head? :=
  constrain_to_time_boundary_correct.2.2 horizon_test_points 6
    (by simp [horizon_test_points])

/-- The square root of 2 is at most 3/2 (used to evaluate the attach walks). -/
theorem sqrt_two_le : Real.sqrt 2 ≤ 3 / 2 := by
  rw [show (3 / 2 : ℝ) = Real.sqrt ((3 / 2) ^ 2) from
    (Real.sqrt_sq (by norm_num)).symm]
  exact Real.sqrt_le_sqrt (by norm_num)

/-- One is at most the square root of 2 (used to evaluate the attach walks). -/
theorem one_le_sqrt_two : (1 : ℝ) ≤ Real.sqrt 2 := by
  rw [show (1 : ℝ) = Real.sqrt 1 from Real.sqrt_one.symm]
  exact Real.sqrt_le_sqrt (by norm_num)

/-- The square root of 8 exceeds 3/2 (used to evaluate the spec attach walk). -/
theorem sqrt_eight_gt : ¬ Real.sqrt 8 ≤ 3 / 2 := by
  rw [not_le]
  exact (Real.lt_sqrt (by norm_num)).mpr (by norm_num)

/-- C5 counterexample: on the repository attach test (6-point current,
3 future points, nearest index 2, max distance 1.5;
src/unnamed/part_000 lines 552-591) the claim's rule — keep the points
before index 2, append the future points within cumulative distance 1.5
of the attachment point — yields the two points (0,1), (1,2) and attaches
no future point (the first future point is already 2·√2 > 1.5 away),
while the test asserts 5 = len(current)−1 points starting at (1,2). -/
theorem attach_past_points_spec_diverges :
    attach_past_points_spec attach_current attach_future 2 1.5 =
      [⟨(0, 1), 1⟩, ⟨(1, 2), 1⟩] ∧
      ([⟨(0, 1), 1⟩, ⟨(1, 2), 1⟩] : List (PointSpeedPair ℝ)).length ≠
        attach_current.length - 1 := by
  constructor
  · norm_num [attach_past_points_spec, attach_walk_spec, dist2d,
      attach_current, attach_future, sqrt_eight_gt]
  · simp [attach_current]

/-- C5 (amended): `attach_past_points` keeps the points of `current_pairs`
from the index reached by walking backwards from `nearest_index_in_current`
while the accumulated point-to-point distance stays within
`max_attach_distance` (at least index 1, and including
`nearest_index_in_current` itself) and appends all of
`previous_future_pairs` in order; on the repository test this yields
`len(current) − 1 = 5` points preserving the coordinates of the retained
and appended points in order. -/
theorem attach_past_points_matches_test :
    attach_past_points attach_current attach_future 2 1.5 =
      [⟨(1, 2), 1⟩, ⟨(2, 3), 1⟩, ⟨(3, 4), 1⟩, ⟨(4, 5), 1⟩, ⟨(5, 6), 1⟩] ∧
    (attach_past_points attach_current attach_future 2 1.5).length =
      attach_current.length - 1 := by
  have hback : back_index attach_current 1.5 2 0 = 1 := by
    have h1 : ¬ (1.5 : ℝ) < Real.sqrt 2 := by
      rw [not_lt]
      calc (1.5 : ℝ) = 3 / 2 := by norm_num
        _ ≥ Real.sqrt 2 := sqrt_two_le
    norm_num [back_index, dist2d, attach_current, h1, sqrt_two_le]
  have hmain : attach_past_points attach_current attach_future 2 1.5 =
      [⟨(1, 2), 1⟩, ⟨(2, 3), 1⟩, ⟨(3, 4), 1⟩, ⟨(4, 5), 1⟩, ⟨(5, 6), 1⟩] := by
    unfold attach_past_points
    rw [hback]
    norm_num [attach_current, attach_future]
  exact ⟨hmain, by rw [hmain]; simp [attach_current]⟩

end waypoint_generation
